import Mathlib

/-!
Shallow embedding of the service-orchestration core of the `ess` full-node
package (`eth/backend.go`) and of the light-client API backend
(`les/api_backend.go`), together with theorems settling the specification's
claims about them.

Conventions of the embedding:
* machine integers become `Nat` / `Int` (no overflow is relevant here:
  the Go code only compares and subtracts small peer counts and versions);
* a 20-byte address becomes a `Nat`, with `0` playing the role of the
  all-zero address `common.Address{}`;
* byte slices become `List Nat` (each entry a byte value);
* fallible Go functions become `Except`-valued Lean functions;
* side effects on collaborator subsystems (starting/stopping goroutines,
  the miner, the protocol manager) become explicit event traces, and the
  results of external fallible collaborators (database open, genesis
  setup, blockchain/protocol-manager construction) become an explicit
  environment record consumed in the source's order.
-/

namespace EssBackend

/-- Modelled from the spec: the downloader package's sync-mode enumeration
(full/fast/light) is not part of the visible sources; the spec lists the
three modes and says any out-of-range mode is invalid. Go represents the
mode as a machine integer, embedded here as `Int`. -/
def FullSync : Int := 0

/-- Modelled from the spec: the fast sync mode of the downloader package. -/
def FastSync : Int := 1

/-- Modelled from the spec: the light sync mode of the downloader package,
rejected by this core. -/
def LightSync : Int := 2

/-- Modelled from the spec: `SyncMode.IsValid` of the downloader package —
a mode is valid when it lies in the enumerated range full..light. -/
def syncModeIsValid (m : Int) : Bool :=
  decide (FullSync ≤ m) && decide (m ≤ LightSync)

/-- Modelled from the spec: `core.BlockChainVersion`, the expected on-disk
database schema version the construction path compares against. The exact
numeral is irrelevant to every claim; only its being fixed and nonzero-able
matters. -/
def BlockChainVersion : Nat := 3

/-- Modelled from the spec: `params.MaximumExtraDataSize`, the protocol's
cap on a mined block's extra-data payload (32 bytes). -/
def MaximumExtraDataSize : Nat := 32

/-- Modelled from the spec: `light.BloomTrieFrequency`, the bloom-trie
frequency constant reported by the light backend's bloom status. -/
def BloomTrieFrequency : Nat := 32768

/-- Modelled from the spec: the ethash PoW mode enumeration. `normal` is the
zero value of the Go type; the other recognized modes are distinct machine
integers. Embedded as `Nat` so that unrecognized mode values exist. -/
def ModeNormal : Nat := 0

/-- Modelled from the spec: the shared ethash PoW mode. -/
def ModeShared : Nat := 1

/-- Modelled from the spec: the test ethash PoW mode. -/
def ModeTest : Nat := 2

/-- Modelled from the spec: the fake ethash PoW mode. -/
def ModeFake : Nat := 3

/-- Modelled from the spec: `params.VersionMajor`, the client's major
semantic version, folded into the default extra-data word. -/
def VersionMajor : Nat := 1

/-- Modelled from the spec: `params.VersionMinor`. -/
def VersionMinor : Nat := 8

/-- Modelled from the spec: `params.VersionPatch`. -/
def VersionPatch : Nat := 13

/-- The version word `VersionMajor<<16 | VersionMinor<<8 | VersionPatch`
built by `makeExtraData`; the shifted fields occupy disjoint byte lanes, so
the bitwise or is plain addition. -/
def clientVersionWord : Nat :=
  VersionMajor * 65536 + VersionMinor * 256 + VersionPatch

/-- The on-disk chain database handle, reduced to the one piece of state the
embedded code observes: the stored schema-version marker
(`rawdb.ReadDatabaseVersion` / `rawdb.WriteDatabaseVersion`). -/
structure DBState where
  version : Nat
deriving DecidableEq, Repr

/-- `params.CliqueConfig`: the proof-of-authority sub-configuration. -/
structure CliqueConfig where
  period : Nat
  epoch : Nat
deriving DecidableEq, Repr

/-- `params.ChainConfig`, reduced to the field the engine selector reads:
the optional proof-of-authority sub-configuration. -/
structure ChainConfig where
  clique : Option CliqueConfig
deriving DecidableEq, Repr

/-- `ethash.Config`: PoW mode plus cache/dataset directories and
in-memory/on-disk retention counts. -/
structure EthashConfig where
  powMode : Nat
  cacheDir : String
  cachesInMem : Nat
  cachesOnDisk : Nat
  datasetDir : String
  datasetsInMem : Nat
  datasetsOnDisk : Nat
deriving DecidableEq, Repr

/-- `node.ServiceContext`, reduced to the capability the embedded code uses:
resolving a relative path against the node's data directory. -/
structure ServiceContext where
  resolvePath : String → String

/-- The consensus engine variants `CreateConsensusEngine` can produce: a
proof-of-authority engine bound to its sub-configuration and the chain
database, the three special ethash variants, or the real ethash engine
carrying its constructed configuration and its thread count (set to `-1` to
disable local CPU mining). -/
inductive Engine where
  | clique (cfg : CliqueConfig) (db : DBState)
  | ethashFaker
  | ethashTester
  | ethashShared
  | ethashReal (cfg : EthashConfig) (threads : Int)
deriving DecidableEq, Repr

/-- Whether the engine is the proof-of-authority variant (the Go type
assertion `s.engine.(*clique.Clique)`). -/
def Engine.isCliqueEngine : Engine → Bool
  | .clique _ _ => true
  | _ => false

/-- `CreateConsensusEngine` (eth/backend.go lines 212-240): a non-nil Clique
sub-configuration wins unconditionally; otherwise the PoW mode selects the
fake/test/shared variant, and every other mode value falls through to the
real engine whose cache directory is resolved against the data directory
(the dataset directory is passed through unresolved, as in the source) and
whose CPU mining is disabled via `SetThreads(-1)`. -/
def CreateConsensusEngine (ctx : ServiceContext) (config : EthashConfig)
    (chainConfig : ChainConfig) (db : DBState) : Engine :=
  match chainConfig.clique with
  | some cl => .clique cl db
  | none =>
    if config.powMode = ModeFake then .ethashFaker
    else if config.powMode = ModeTest then .ethashTester
    else if config.powMode = ModeShared then .ethashShared
    else
      .ethashReal
        { powMode := ModeNormal
          cacheDir := ctx.resolvePath config.cacheDir
          cachesInMem := config.cachesInMem
          cachesOnDisk := config.cachesOnDisk
          datasetDir := config.datasetDir
          datasetsInMem := config.datasetsInMem
          datasetsOnDisk := config.datasetsOnDisk }
        (-1)

/-- Big-endian minimal byte representation of a natural number (the empty
list for zero), written with an explicit fuel argument (the number itself
bounds the recursion depth) so that concrete values reduce definitionally. -/
def beBytesAux : Nat → Nat → List Nat
  | 0, _ => []
  | fuel + 1, n => if n = 0 then [] else beBytesAux fuel (n / 256) ++ [n % 256]

/-- Big-endian minimal byte representation of a natural number. -/
def beBytes (n : Nat) : List Nat := beBytesAux n n

/-- RLP encoding of a byte string: a single byte below 0x80 stands for
itself; short strings get a `0x80 + len` header; long strings get a
`0xb7 + lenlen` header followed by the big-endian length. -/
def rlpEncodeBytes (bs : List Nat) : List Nat :=
  match bs with
  | [b] => if b < 128 then [b] else [129, b]
  | _ =>
    if bs.length < 56 then (128 + bs.length) :: bs
    else (183 + (beBytes bs.length).length) :: (beBytes bs.length ++ bs)

/-- RLP encoding of an unsigned integer: the RLP of its minimal big-endian
byte representation. -/
def rlpEncodeUint (n : Nat) : List Nat := rlpEncodeBytes (beBytes n)

/-- The byte values of a string (the Go string's bytes; the strings involved
here are ASCII). -/
def strBytes (s : String) : List Nat := s.data.map Char.toNat

/-- RLP encoding of a string item. -/
def rlpEncodeString (s : String) : List Nat := rlpEncodeBytes (strBytes s)

/-- RLP encoding of a list given the concatenation of its encoded items. -/
def rlpEncodeList (payload : List Nat) : List Nat :=
  if payload.length < 56 then (192 + payload.length) :: payload
  else (247 + (beBytes payload.length).length) :: (beBytes payload.length ++ payload)

/-- The default extra-data payload synthesized by `makeExtraData` when the
configured payload is empty: the RLP list of the client version word, the
client identifier string, and the runtime platform identifiers
(`runtime.Version()` and `runtime.GOOS`, ambient inputs passed explicitly
here). -/
def defaultExtraData (goVer goOS : String) : List Nat :=
  rlpEncodeList
    (rlpEncodeUint clientVersionWord ++ rlpEncodeString "geth"
      ++ rlpEncodeString goVer ++ rlpEncodeString goOS)

/-- `makeExtraData` (eth/backend.go lines 182-197): an empty configured
payload is replaced by the synthesized default; any payload longer than
`MaximumExtraDataSize` is discarded (a warning is logged and the nil slice
is returned); otherwise the payload is returned unchanged. -/
def makeExtraData (goVer goOS : String) (extra : List Nat) : List Nat :=
  let extra := if extra.length = 0 then defaultExtraData goVer goOS else extra
  if extra.length > MaximumExtraDataSize then [] else extra

/-- The `ess` node configuration (`eth/gen_config.go` fields referenced by
the embedded code): sync mode, network id, gas price, explicit etherbase,
light-serving capacity, schema-check toggle, extra-data bytes, and the
ethash sub-configuration. -/
structure Config where
  syncMode : Int
  networkId : Nat
  gasPrice : Int
  etherbase : Nat
  lightServ : Int
  lightPeers : Int
  skipBcVersionCheck : Bool
  extraData : List Nat
  ethash : EthashConfig
deriving DecidableEq, Repr

/-- Outcome of `core.SetupGenesisBlock` as classified by `New` (eth/backend.go
line 116): no error, a `params.ConfigCompatError` carrying a rewind target
(recoverable), or any other error (fatal). Errors carry an opaque token. -/
inductive GenesisOutcome where
  | ok
  | compat (rewindTo : Nat)
  | hardErr (e : Nat)
deriving DecidableEq, Repr

/-- Whether the genesis outcome is the fatal (non-compatibility) error case. -/
def GenesisOutcome.isHardErr : GenesisOutcome → Bool
  | .hardErr _ => true
  | _ => false

/-- Results of the external fallible collaborators consumed by `New`, in the
source's order: `CreateDB`, `core.SetupGenesisBlock` (its chain config and
error classification), `core.NewBlockChain` and `NewProtocolManager`
(`none` meaning success, `some e` the opaque error returned). -/
structure NewEnv where
  createDB : Except Nat DBState
  chainConfig : ChainConfig
  genesis : GenesisOutcome
  newBlockChain : Option Nat
  newProtocolManager : Option Nat
deriving Repr

/-- The errors `New` can return, each constructor carrying exactly the data
the Go error message formats in. -/
inductive NewError where
  | lightSyncMode
  | invalidSyncMode (mode : Int)
  | dbOpen (e : Nat)
  | genesis (e : Nat)
  | versionMismatch (stored current : Nat)
  | blockChain (e : Nat)
  | protocolManager (e : Nat)
deriving DecidableEq, Repr

/-- The successfully constructed node as observable after `New`: the final
database state (with the schema version written), the derived chain
configuration, the selected engine, the configuration-derived fields, the
rewind target if a compatibility signal was raised, and the miner's
extra-data payload. -/
structure NewResult where
  db : DBState
  chainConfig : ChainConfig
  engine : Engine
  etherbase : Nat
  networkID : Nat
  gasPrice : Int
  rewoundTo : Option Nat
  minerExtra : List Nat
deriving DecidableEq, Repr

/-- `New` (eth/backend.go lines 104-180): reject light sync, reject invalid
sync modes, open the chain database, classify the genesis outcome (fatal
unless nil or a compatibility signal), select the consensus engine, run the
schema-version check (mismatching nonzero stored version is fatal; otherwise
the current version is written), construct the blockchain (rewinding on a
compatibility signal), the protocol manager, and the miner with its
extra-data. -/
def New (ctx : ServiceContext) (config : Config) (env : NewEnv)
    (goVer goOS : String) : Except NewError NewResult :=
  if config.syncMode = LightSync then .error .lightSyncMode
  else if syncModeIsValid config.syncMode = false then
    .error (.invalidSyncMode config.syncMode)
  else
    match env.createDB with
    | .error e => .error (.dbOpen e)
    | .ok chainDb =>
      match env.genesis with
      | .hardErr e => .error (.genesis e)
      | g =>
        let chainConfig := env.chainConfig
        let engine := CreateConsensusEngine ctx config.ethash chainConfig chainDb
        let checked : Except NewError DBState :=
          if config.skipBcVersionCheck = false then
            let bcVersion := chainDb.version
            if bcVersion ≠ BlockChainVersion ∧ bcVersion ≠ 0 then
              .error (.versionMismatch bcVersion BlockChainVersion)
            else .ok { chainDb with version := BlockChainVersion }
          else .ok chainDb
        match checked with
        | .error e => .error e
        | .ok db2 =>
          match env.newBlockChain with
          | some e => .error (.blockChain e)
          | none =>
            let rewoundTo := match g with | .compat r => some r | _ => none
            match env.newProtocolManager with
            | some e => .error (.protocolManager e)
            | none =>
              .ok
                { db := db2
                  chainConfig := chainConfig
                  engine := engine
                  etherbase := config.etherbase
                  networkID := config.networkId
                  gasPrice := config.gasPrice
                  rewoundTo := rewoundTo
                  minerExtra := makeExtraData goVer goOS config.extraData }

/-- The running `Essentia` node, reduced to the state its lifecycle methods
observe and mutate: the configuration, the lock-protected etherbase field,
the account manager's wallets (each wallet its list of account addresses),
the consensus engine, the protocol manager's atomic accept-transactions
flag, and whether a light-serving extension is attached. -/
structure Essentia where
  config : Config
  etherbase : Nat
  wallets : List (List Nat)
  engine : Engine
  acceptTxs : Nat
  lesServer : Bool
deriving DecidableEq, Repr

/-- The error of `Essentia.Etherbase`: "etherbase must be explicitly
specified". -/
inductive EtherbaseError where
  | mustBeSpecified
deriving DecidableEq, Repr

/-- `Essentia.Etherbase` (eth/backend.go lines 303-324): return the stored
etherbase when nonzero; otherwise, when the wallet list is nonempty and its
first wallet has an account, persist and return that first account;
otherwise fail. Returns the result together with the (possibly updated)
node state. -/
def Essentia.Etherbase (s : Essentia) : Except EtherbaseError Nat × Essentia :=
  if s.etherbase ≠ 0 then (.ok s.etherbase, s)
  else
    match s.wallets with
    | firstWallet :: _ =>
      match firstWallet with
      | acct :: _ => (.ok acct, { s with etherbase := acct })
      | [] => (.error .mustBeSpecified, s)
    | [] => (.error .mustBeSpecified, s)

/-- Modelled from the spec: `accounts.Manager.Find` (the account-manager
package is not among the visible sources) — locate a usable local signing
capability, i.e. the first wallet containing the given account address. -/
def findWallet (wallets : List (List Nat)) (addr : Nat) : Option (List Nat) :=
  wallets.find? (fun w => w.contains addr)

/-- The errors `Essentia.StartMining` can return. -/
inductive StartMiningError where
  | etherbaseMissing
  | signerMissing
deriving DecidableEq, Repr

/-- Observable collaborator calls made by `Essentia.StartMining`: the PoA
authorization handoff and the asynchronous `go s.miner.Start(eb)`. -/
inductive MiningEvent where
  | authorize (addr : Nat)
  | minerStartAsync (addr : Nat)
deriving DecidableEq, Repr

/-- `Essentia.StartMining` (eth/backend.go lines 335-358): resolve the
etherbase via `Etherbase` (failure becomes "etherbase missing"); for a
proof-of-authority engine require a local wallet holding the resolved
address (failure becomes "signer missing", with no mining started) and
authorize it; when `isLocal` is set, store 1 into the protocol manager's
accept-transactions flag; finally start the miner asynchronously and return
without waiting. Returns the new state, the call's result, and the trace of
collaborator calls. -/
def Essentia.StartMining (s : Essentia) (isLocal : Bool) :
    Essentia × Except StartMiningError Unit × List MiningEvent :=
  match s.Etherbase with
  | (.error _, s1) => (s1, .error .etherbaseMissing, [])
  | (.ok eb, s1) =>
    match s1.engine with
    | .clique _ _ =>
      match findWallet s1.wallets eb with
      | none => (s1, .error .signerMissing, [])
      | some _ =>
        let s2 := if isLocal then { s1 with acceptTxs := 1 } else s1
        (s2, .ok (), [.authorize eb, .minerStartAsync eb])
    | _ =>
      let s2 := if isLocal then { s1 with acceptTxs := 1 } else s1
      (s2, .ok (), [.minerStartAsync eb])

/-- Observable collaborator calls made by `Essentia.Start`, in order. -/
inductive StartEvent where
  | bloomHandlersStart
  | netRPCStart
  | protocolManagerStart (maxPeers : Int)
  | lesServerStart
deriving DecidableEq, Repr

/-- The error of `Essentia.Start`: "invalid peer config: light peer count
(%d) >= total peer count (%d)", carrying both counts. -/
inductive StartError where
  | invalidPeerConfig (lightPeers maxPeers : Int)
deriving DecidableEq, Repr

/-- `Essentia.Start` (eth/backend.go lines 386-407): start the bloom
handlers and the net RPC service; when light serving is enabled
(`LightServ > 0`), fail if the light-peer reservation reaches the server's
total peer capacity, and otherwise subtract it from the protocol manager's
peer budget; start the protocol manager with the resulting budget, and the
light extension when attached. Returns the trace of collaborator calls and
the error, if any. -/
def Essentia.Start (s : Essentia) (srvrMaxPeers : Int) :
    List StartEvent × Option StartError :=
  let evs := [StartEvent.bloomHandlersStart, StartEvent.netRPCStart]
  if s.config.lightServ > 0 then
    if s.config.lightPeers ≥ srvrMaxPeers then
      (evs, some (.invalidPeerConfig s.config.lightPeers srvrMaxPeers))
    else
      (evs ++ [StartEvent.protocolManagerStart (srvrMaxPeers - s.config.lightPeers)]
        ++ (if s.lesServer then [StartEvent.lesServerStart] else []), none)
  else
    (evs ++ [StartEvent.protocolManagerStart srvrMaxPeers]
      ++ (if s.lesServer then [StartEvent.lesServerStart] else []), none)

/-- The shutdown steps `Essentia.Stop` performs, in order. -/
inductive StopEvent where
  | bloomIndexerClose
  | blockchainStop
  | protocolManagerStop
  | lesServerStop
  | txPoolStop
  | minerStop
  | eventMuxStop
  | chainDbClose
  | shutdownChanClose
deriving DecidableEq, Repr

/-- `Essentia.Stop` (eth/backend.go lines 411-426): the fixed shutdown
sequence — bloom indexer, blockchain, protocol manager, the light extension
when attached, transaction pool, miner, event mux, database, and finally the
single close of the shutdown channel. Returns the trace of steps taken. -/
def Essentia.Stop (s : Essentia) : List StopEvent :=
  [StopEvent.bloomIndexerClose, StopEvent.blockchainStop, StopEvent.protocolManagerStop]
    ++ (if s.lesServer then [StopEvent.lesServerStop] else [])
    ++ [StopEvent.txPoolStop, StopEvent.minerStop, StopEvent.eventMuxStop,
        StopEvent.chainDbClose, StopEvent.shutdownChanClose]

/-- Modelled from the spec: `core.ChainIndexer`, reduced to what `Sections`
introspects — the count of completed sections (and the head of the last
one). The indexer package is not among the visible sources; the spec says
it "exposes introspection of how many complete sections exist". -/
structure ChainIndexer where
  storedSections : Nat
  sectionHead : Nat
deriving DecidableEq, Repr

/-- Modelled from the spec: `ChainIndexer.Sections` returns the number of
completed sections together with the index and head of the last one. -/
def ChainIndexer.Sections (c : ChainIndexer) : Nat × Nat × Nat :=
  (c.storedSections, c.storedSections - 1, c.sectionHead)

/-- The light-client API backend (`les/api_backend.go`), reduced to the
state `BloomStatus` observes: the optional bloom indexer. -/
structure LesApiBackend where
  bloomIndexer : Option ChainIndexer
deriving DecidableEq, Repr

/-- `LesApiBackend.BloomStatus` (les/api_backend.go lines 190-196): `(0, 0)`
when no bloom indexer is present; otherwise the bloom-trie frequency
constant paired with the indexer's count of completed sections. -/
def LesApiBackend.BloomStatus (b : LesApiBackend) : Nat × Nat :=
  match b.bloomIndexer with
  | none => (0, 0)
  | some ix => (BloomTrieFrequency, ix.Sections.1)

/-! Concrete sample inputs used by the closed witness and counterexample
theorems below. -/

/-- A concrete service context whose path resolution is the identity. -/
def exCtx : ServiceContext := { resolvePath := fun s => s }

/-- A concrete ethash sub-configuration with the fake PoW mode. -/
def exEthashFakeCfg : EthashConfig :=
  { powMode := ModeFake, cacheDir := "ethash", cachesInMem := 2,
    cachesOnDisk := 3, datasetDir := "dataset", datasetsInMem := 1,
    datasetsOnDisk := 2 }

/-- A concrete ethash sub-configuration with an unrecognized PoW mode. -/
def exEthashOddCfg : EthashConfig :=
  { exEthashFakeCfg with powMode := 99 }

/-- A concrete node configuration: full sync, no light serving, version
check enabled, zero etherbase, empty extra-data. -/
def exConfig : Config :=
  { syncMode := FullSync, networkId := 1, gasPrice := 18000000000,
    etherbase := 0, lightServ := 0, lightPeers := 0,
    skipBcVersionCheck := false, extraData := [],
    ethash := exEthashOddCfg }

/-- A concrete proof-of-authority sub-configuration. -/
def exClique : CliqueConfig := { period := 15, epoch := 30000 }

/-- C2: with a non-nil Clique sub-configuration, `CreateConsensusEngine`
returns the proof-of-authority engine bound to that sub-configuration and
the chain database, whatever the PoW mode is. -/
theorem createConsensusEngine_clique_wins (ctx : ServiceContext)
    (config : EthashConfig) (chainConfig : ChainConfig) (db : DBState)
    (cl : CliqueConfig) (h : chainConfig.clique = some cl) :
    CreateConsensusEngine ctx config chainConfig db = .clique cl db := by
  unfold CreateConsensusEngine
  rw [h]

/-- Witness for C2 at a concrete input whose PoW mode is `fake`, showing the
clique branch still wins. -/
theorem createConsensusEngine_clique_wins_witness :
    (ChainConfig.mk (some exClique)).clique = some exClique
    ∧ CreateConsensusEngine exCtx exEthashFakeCfg (ChainConfig.mk (some exClique))
        (DBState.mk 0) = .clique exClique (DBState.mk 0) :=
  ⟨rfl, createConsensusEngine_clique_wins exCtx exEthashFakeCfg _ _ exClique rfl⟩

/-- C3: with a nil Clique sub-configuration, `CreateConsensusEngine` maps the
fake/test/shared PoW modes to the corresponding special engines and every
other mode value to the real engine, configured with the resolved cache
directory, the dataset directory, the retention counts, and CPU mining
disabled (`threads = -1`). -/
theorem createConsensusEngine_pow_modes (ctx : ServiceContext)
    (config : EthashConfig) (chainConfig : ChainConfig) (db : DBState)
    (h : chainConfig.clique = none) :
    (config.powMode = ModeFake →
      CreateConsensusEngine ctx config chainConfig db = .ethashFaker)
    ∧ (config.powMode = ModeTest →
      CreateConsensusEngine ctx config chainConfig db = .ethashTester)
    ∧ (config.powMode = ModeShared →
      CreateConsensusEngine ctx config chainConfig db = .ethashShared)
    ∧ (config.powMode ≠ ModeFake → config.powMode ≠ ModeTest →
        config.powMode ≠ ModeShared →
      CreateConsensusEngine ctx config chainConfig db =
        .ethashReal
          { powMode := ModeNormal
            cacheDir := ctx.resolvePath config.cacheDir
            cachesInMem := config.cachesInMem
            cachesOnDisk := config.cachesOnDisk
            datasetDir := config.datasetDir
            datasetsInMem := config.datasetsInMem
            datasetsOnDisk := config.datasetsOnDisk }
          (-1)) := by
  unfold CreateConsensusEngine
  rw [h]
  refine ⟨fun h1 => ?_, fun h1 => ?_, fun h1 => ?_, fun h1 h2 h3 => ?_⟩
  · rw [if_pos h1]
  · rw [if_neg ?_, if_pos h1]
    rw [h1]; decide
  · rw [if_neg ?_, if_neg ?_, if_pos h1]
    · rw [h1]; decide
    · rw [h1]; decide
  · rw [if_neg h1, if_neg h2, if_neg h3]

/-- Witness for C3 at a concrete unrecognized PoW mode value (99), showing
the fall-through to the real engine with mining disabled. -/
theorem createConsensusEngine_pow_modes_witness :
    (ChainConfig.mk none).clique = none
    ∧ exEthashOddCfg.powMode ≠ ModeFake
    ∧ exEthashOddCfg.powMode ≠ ModeTest
    ∧ exEthashOddCfg.powMode ≠ ModeShared
    ∧ CreateConsensusEngine exCtx exEthashOddCfg (ChainConfig.mk none)
        (DBState.mk 0) =
      .ethashReal
        { powMode := ModeNormal, cacheDir := "ethash", cachesInMem := 2,
          cachesOnDisk := 3, datasetDir := "dataset", datasetsInMem := 1,
          datasetsOnDisk := 2 }
        (-1) :=
  ⟨rfl, by decide, by decide, by decide,
    (createConsensusEngine_pow_modes exCtx exEthashOddCfg (ChainConfig.mk none)
        (DBState.mk 0) rfl).2.2.2 (by decide) (by decide) (by decide)⟩

/-- C7: `Essentia.Stop` performs exactly the fixed shutdown sequence (with
the light-extension step present iff one is attached), attempts every step,
and closes the shutdown channel exactly once, as the final step — for every
node state. -/
theorem stop_shutdown_sequence (s : Essentia) :
    s.Stop =
      (if s.lesServer then
        [StopEvent.bloomIndexerClose, StopEvent.blockchainStop,
         StopEvent.protocolManagerStop, StopEvent.lesServerStop,
         StopEvent.txPoolStop, StopEvent.minerStop, StopEvent.eventMuxStop,
         StopEvent.chainDbClose, StopEvent.shutdownChanClose]
      else
        [StopEvent.bloomIndexerClose, StopEvent.blockchainStop,
         StopEvent.protocolManagerStop, StopEvent.txPoolStop,
         StopEvent.minerStop, StopEvent.eventMuxStop, StopEvent.chainDbClose,
         StopEvent.shutdownChanClose])
    ∧ s.Stop.count StopEvent.shutdownChanClose = 1
    ∧ s.Stop.getLast? = some StopEvent.shutdownChanClose := by
  unfold Essentia.Stop
  cases h : s.lesServer <;> simp only [h, if_true, if_false, Bool.false_eq_true]
  · exact ⟨by decide, by decide, by decide⟩
  · exact ⟨by decide, by decide, by decide⟩

/-- C10: `LesApiBackend.BloomStatus` is total over the optional bloom
indexer: `(0, 0)` when it is absent, and the bloom-trie frequency paired
with the indexer's completed-section count when present. -/
theorem bloomStatus_total (b : LesApiBackend) :
    (b.bloomIndexer = none → b.BloomStatus = (0, 0))
    ∧ (∀ ix, b.bloomIndexer = some ix →
        b.BloomStatus = (BloomTrieFrequency, ix.storedSections)) := by
  constructor
  · intro h
    unfold LesApiBackend.BloomStatus
    rw [h]
  · intro ix h
    unfold LesApiBackend.BloomStatus
    rw [h]
    rfl

/-- Witness for C10 at concrete inputs: an absent indexer yields `(0, 0)`,
and an indexer with 7 completed sections yields the frequency paired
with 7. -/
theorem bloomStatus_total_witness :
    (LesApiBackend.mk none).bloomIndexer = none
    ∧ (LesApiBackend.mk none).BloomStatus = (0, 0)
    ∧ (LesApiBackend.mk (some (ChainIndexer.mk 7 42))).bloomIndexer
        = some (ChainIndexer.mk 7 42)
    ∧ (LesApiBackend.mk (some (ChainIndexer.mk 7 42))).BloomStatus
        = (BloomTrieFrequency, 7) :=
  ⟨rfl, (bloomStatus_total (LesApiBackend.mk none)).1 rfl, rfl,
    (bloomStatus_total (LesApiBackend.mk (some (ChainIndexer.mk 7 42)))).2
      (ChainIndexer.mk 7 42) rfl⟩

/-- C8: `makeExtraData` is total; an empty configured payload is replaced by
the synthesized default (itself subject to the size cap), a payload longer
than the protocol maximum is discarded to the empty payload, and any other
payload is returned unchanged; the synthesized default is the RLP list of
the client version word, the client identifier, and the runtime platform
identifiers. -/
theorem makeExtraData_spec (goVer goOS : String) (extra : List Nat) :
    (extra = [] →
      makeExtraData goVer goOS extra =
        (if (defaultExtraData goVer goOS).length > MaximumExtraDataSize then []
         else defaultExtraData goVer goOS))
    ∧ (extra ≠ [] → extra.length > MaximumExtraDataSize →
        makeExtraData goVer goOS extra = [])
    ∧ (extra ≠ [] → extra.length ≤ MaximumExtraDataSize →
        makeExtraData goVer goOS extra = extra)
    ∧ defaultExtraData goVer goOS =
        rlpEncodeList
          (rlpEncodeUint clientVersionWord ++ rlpEncodeString "geth"
            ++ rlpEncodeString goVer ++ rlpEncodeString goOS) := by
  refine ⟨fun h => ?_, fun h hlen => ?_, fun h hlen => ?_, rfl⟩
  · unfold makeExtraData
    rw [h]
    simp
  · unfold makeExtraData
    have hne : extra.length ≠ 0 := by
      simpa using fun hc => h (List.length_eq_zero.mp hc)
    rw [if_neg hne, if_pos hlen]
  · unfold makeExtraData
    have hne : extra.length ≠ 0 := by
      simpa using fun hc => h (List.length_eq_zero.mp hc)
    rw [if_neg hne, if_neg (by omega)]

/-- Witness for C8 at concrete inputs: a short configured payload passes
through unchanged, an oversized one is discarded, and the empty one becomes
the synthesized default (here 23 bytes, under the cap). -/
theorem makeExtraData_spec_witness :
    ([1, 2, 3] : List Nat) ≠ []
    ∧ ([1, 2, 3] : List Nat).length ≤ MaximumExtraDataSize
    ∧ makeExtraData "go1.10" "linux" [1, 2, 3] = [1, 2, 3]
    ∧ (List.replicate 33 0 : List Nat) ≠ []
    ∧ (List.replicate 33 0 : List Nat).length > MaximumExtraDataSize
    ∧ makeExtraData "go1.10" "linux" (List.replicate 33 0) = []
    ∧ makeExtraData "go1.10" "linux" [] = defaultExtraData "go1.10" "linux" := by
  refine ⟨by decide, by decide,
    (makeExtraData_spec "go1.10" "linux" [1, 2, 3]).2.2.1 (by decide) (by decide),
    by decide, by decide,
    (makeExtraData_spec "go1.10" "linux" (List.replicate 33 0)).2.1
      (by decide) (by decide), ?_⟩
  rw [(makeExtraData_spec "go1.10" "linux" []).1 rfl, if_neg (by decide)]

/-- C4: `New` rejects the light sync mode with the dedicated error and every
out-of-range sync mode with the invalid-sync-mode error carrying the mode;
in both cases only the error is returned, never a node. -/
theorem new_rejects_bad_sync_modes (ctx : ServiceContext) (config : Config)
    (env : NewEnv) (goVer goOS : String) :
    (config.syncMode = LightSync →
      New ctx config env goVer goOS = .error .lightSyncMode)
    ∧ (syncModeIsValid config.syncMode = false →
      New ctx config env goVer goOS = .error (.invalidSyncMode config.syncMode)) := by
  constructor
  · intro h
    unfold New
    rw [if_pos h]
  · intro h
    have hne : config.syncMode ≠ LightSync := by
      intro he
      rw [he] at h
      exact absurd h (by decide)
    unfold New
    rw [if_neg hne, if_pos h]

/-- Witness for C4 at concrete inputs: sync mode 2 (light) is rejected with
the light-sync error, and the out-of-range sync mode 7 with the
invalid-sync-mode error. -/
theorem new_rejects_bad_sync_modes_witness :
    ({ exConfig with syncMode := LightSync } : Config).syncMode = LightSync
    ∧ New exCtx { exConfig with syncMode := LightSync }
        (NewEnv.mk (.ok (DBState.mk 0)) (ChainConfig.mk none) .ok none none)
        "go1.10" "linux" = .error .lightSyncMode
    ∧ syncModeIsValid ({ exConfig with syncMode := 7 } : Config).syncMode = false
    ∧ New exCtx { exConfig with syncMode := 7 }
        (NewEnv.mk (.ok (DBState.mk 0)) (ChainConfig.mk none) .ok none none)
        "go1.10" "linux" = .error (.invalidSyncMode 7) :=
  ⟨rfl,
    (new_rejects_bad_sync_modes exCtx { exConfig with syncMode := LightSync }
      (NewEnv.mk (.ok (DBState.mk 0)) (ChainConfig.mk none) .ok none none)
      "go1.10" "linux").1 rfl,
    by decide,
    (new_rejects_bad_sync_modes exCtx { exConfig with syncMode := 7 }
      (NewEnv.mk (.ok (DBState.mk 0)) (ChainConfig.mk none) .ok none none)
      "go1.10" "linux").2 (by decide)⟩

/-- Helper: once the sync-mode checks, the database open and the genesis
classification have passed, `New` is the version check followed by the
blockchain and protocol-manager steps. -/
theorem new_after_checks (ctx : ServiceContext) (config : Config)
    (env : NewEnv) (goVer goOS : String) (db : DBState)
    (hlight : config.syncMode ≠ LightSync)
    (hvalid : syncModeIsValid config.syncMode = true)
    (hdb : env.createDB = .ok db)
    (hgen : env.genesis.isHardErr = false) :
    New ctx config env goVer goOS =
      match (if config.skipBcVersionCheck = false then
               if db.version ≠ BlockChainVersion ∧ db.version ≠ 0 then
                 Except.error (NewError.versionMismatch db.version BlockChainVersion)
               else .ok { db with version := BlockChainVersion }
             else .ok db) with
      | .error e => .error e
      | .ok db2 =>
        match env.newBlockChain with
        | some e => .error (.blockChain e)
        | none =>
          match env.newProtocolManager with
          | some e => .error (.protocolManager e)
          | none =>
            .ok
              { db := db2
                chainConfig := env.chainConfig
                engine := CreateConsensusEngine ctx config.ethash env.chainConfig db
                etherbase := config.etherbase
                networkID := config.networkId
                gasPrice := config.gasPrice
                rewoundTo := (match env.genesis with | .compat r => some r | _ => none)
                minerExtra := makeExtraData goVer goOS config.extraData } := by
  have hval' : ¬ (syncModeIsValid config.syncMode = false) := by
    rw [hvalid]; decide
  unfold New
  rw [if_neg hlight, if_neg hval', hdb]
  cases hg : env.genesis
  · rfl
  · rfl
  · rw [hg] at hgen
    simp [GenesisOutcome.isHardErr] at hgen

/-- C5: with the schema-version check enabled and construction past the
sync-mode/database/genesis steps, a stored version of 0 never produces the
version-mismatch error and (when the remaining steps succeed) the node is
built with the current version written in the database's place, while a
nonzero stored version different from the current one always fails with the
error carrying both versions. -/
theorem new_db_version_check (ctx : ServiceContext) (config : Config)
    (env : NewEnv) (goVer goOS : String) (db : DBState)
    (hskip : config.skipBcVersionCheck = false)
    (hlight : config.syncMode ≠ LightSync)
    (hvalid : syncModeIsValid config.syncMode = true)
    (hdb : env.createDB = .ok db)
    (hgen : env.genesis.isHardErr = false) :
    (db.version = 0 →
      (∀ st cur, New ctx config env goVer goOS
          ≠ .error (.versionMismatch st cur))
      ∧ (env.newBlockChain = none → env.newProtocolManager = none →
          ∃ r, New ctx config env goVer goOS = .ok r
            ∧ r.db.version = BlockChainVersion))
    ∧ (db.version ≠ 0 → db.version ≠ BlockChainVersion →
        New ctx config env goVer goOS
          = .error (.versionMismatch db.version BlockChainVersion)) := by
  rw [new_after_checks ctx config env goVer goOS db hlight hvalid hdb hgen,
    hskip]
  constructor
  · intro hz
    rw [hz]
    simp only [if_pos rfl, ne_eq, not_true_eq_false, and_false, if_false,
      ite_false]
    constructor
    · intro st cur
      cases env.newBlockChain <;> cases env.newProtocolManager <;> simp
    · intro hbc hpm
      rw [hbc, hpm]
      exact ⟨_, rfl, rfl⟩
  · intro hnz hne
    rw [if_pos rfl, if_pos ⟨hne, hnz⟩]

/-- Witness for C5 at a concrete input: a stored version of 5 against the
current version fails with the error carrying both versions. -/
theorem new_db_version_check_witness :
    exConfig.skipBcVersionCheck = false
    ∧ exConfig.syncMode ≠ LightSync
    ∧ syncModeIsValid exConfig.syncMode = true
    ∧ (NewEnv.mk (.ok (DBState.mk 5)) (ChainConfig.mk none) .ok none none).createDB
        = .ok (DBState.mk 5)
    ∧ (NewEnv.mk (.ok (DBState.mk 5)) (ChainConfig.mk none) .ok none none).genesis.isHardErr
        = false
    ∧ (DBState.mk 5).version ≠ 0
    ∧ (DBState.mk 5).version ≠ BlockChainVersion
    ∧ New exCtx exConfig
        (NewEnv.mk (.ok (DBState.mk 5)) (ChainConfig.mk none) .ok none none)
        "go1.10" "linux"
        = .error (.versionMismatch 5 BlockChainVersion) :=
  ⟨rfl, by decide, by decide, rfl, rfl, by decide, by decide,
    (new_db_version_check exCtx exConfig
        (NewEnv.mk (.ok (DBState.mk 5)) (ChainConfig.mk none) .ok none none)
        "go1.10" "linux" (DBState.mk 5) rfl (by decide) (by decide) rfl
        rfl).2 (by decide) (by decide)⟩

/-- Helper: `Essentia.Etherbase` only ever touches the etherbase field — the
configuration, wallets, engine and accept-transactions flag of the returned
state are those of the input state. -/
theorem etherbase_fields (s : Essentia) :
    (s.Etherbase).2.engine = s.engine
    ∧ (s.Etherbase).2.wallets = s.wallets
    ∧ (s.Etherbase).2.acceptTxs = s.acceptTxs
    ∧ (s.Etherbase).2.config = s.config := by
  unfold Essentia.Etherbase
  split
  · exact ⟨rfl, rfl, rfl, rfl⟩
  · split
    · split
      · exact ⟨rfl, rfl, rfl, rfl⟩
      · exact ⟨rfl, rfl, rfl, rfl⟩
    · exact ⟨rfl, rfl, rfl, rfl⟩

/-- C9 (counterexample input): etherbase unset, first wallet empty, second
wallet holding account 7. -/
def ebClaimInput : Essentia :=
  { config := exConfig, etherbase := 0, wallets := [[], [7]],
    engine := .ethashFaker, acceptTxs := 0, lesServer := false }

/-- C9 is false as stated: at `ebClaimInput` the etherbase field is zero and
a wallet with an account exists, yet `Etherbase` returns the error — the
code only consults the first wallet, which is empty. -/
theorem etherbase_claim_counterexample :
    ebClaimInput.etherbase = 0
    ∧ (∃ w ∈ ebClaimInput.wallets, w ≠ [])
    ∧ (ebClaimInput.Etherbase).1 = .error .mustBeSpecified := by
  refine ⟨rfl, ⟨[7], ?_, ?_⟩, rfl⟩
  · simp [ebClaimInput]
  · simp

/-- C9 (amended): `Etherbase` returns the stored etherbase when nonzero;
when it is zero it consults only the first wallet — if that wallet has an
account, its first account is returned and persisted (so a second call
returns it directly), and otherwise (no wallet, or an empty first wallet,
even if a later wallet has accounts) it returns the error; it never
consults the engine, so no mining/signing authorization is involved. -/
theorem etherbase_resolution (s : Essentia) :
    (s.etherbase ≠ 0 → s.Etherbase = (.ok s.etherbase, s))
    ∧ (s.etherbase = 0 →
        (∀ a as ws, s.wallets = (a :: as) :: ws →
          s.Etherbase = (.ok a, { s with etherbase := a })
          ∧ ({ s with etherbase := a } : Essentia).Etherbase
              = (.ok a, { s with etherbase := a }))
        ∧ (∀ ws, s.wallets = [] :: ws →
            (s.Etherbase).1 = .error .mustBeSpecified)
        ∧ (s.wallets = [] → (s.Etherbase).1 = .error .mustBeSpecified))
    ∧ (∀ e, (({ s with engine := e } : Essentia).Etherbase).1
        = (s.Etherbase).1) := by
  refine ⟨fun h => ?_, fun hz => ⟨fun a as ws hw => ⟨?_, ?_⟩, fun ws hw => ?_,
    fun hw => ?_⟩, fun e => ?_⟩
  · unfold Essentia.Etherbase
    rw [if_pos h]
  · unfold Essentia.Etherbase
    rw [if_neg (by simp [hz]), hw]
  · by_cases ha : a = 0
    · unfold Essentia.Etherbase
      rw [if_neg (by simp [ha])]
      rw [show ({ s with etherbase := a } : Essentia).wallets = s.wallets from rfl,
        hw]
    · unfold Essentia.Etherbase
      rw [if_pos (by simpa using ha)]
  · unfold Essentia.Etherbase
    rw [if_neg (by simp [hz]), hw]
  · unfold Essentia.Etherbase
    rw [if_neg (by simp [hz]), hw]
  · unfold Essentia.Etherbase
    by_cases h : s.etherbase ≠ 0
    · rw [if_pos h, if_pos h]
    · rw [if_neg h, if_neg h]
      cases hw : s.wallets with
      | nil => rfl
      | cons w ws => cases w <;> rfl

/-- A node state with an unset etherbase and two accounts in the first
wallet, used by the C9 witness. -/
def ebResolveInput : Essentia :=
  { config := exConfig, etherbase := 0, wallets := [[5, 6], [7]],
    engine := .ethashFaker, acceptTxs := 0, lesServer := false }

/-- Witness for the amended C9 at a concrete input: with a zero etherbase
and accounts 5 and 6 in the first wallet, `Etherbase` returns and persists
account 5, and a second call on the updated state returns it directly. -/
theorem etherbase_resolution_witness :
    ebResolveInput.etherbase = 0
    ∧ ebResolveInput.wallets = (5 :: [6]) :: [[7]]
    ∧ ebResolveInput.Etherbase
        = (.ok 5, { ebResolveInput with etherbase := 5 })
    ∧ ({ ebResolveInput with etherbase := 5 } : Essentia).Etherbase
        = (.ok 5, { ebResolveInput with etherbase := 5 }) :=
  ⟨rfl, rfl,
    (((etherbase_resolution ebResolveInput).2.1 rfl).1 5 [6] [[7]] rfl).1,
    (((etherbase_resolution ebResolveInput).2.1 rfl).1 5 [6] [[7]] rfl).2⟩

/-- C6: `StartMining` resolves the etherbase through `Etherbase` (stored
nonzero value first, then the first account of the first wallet, else the
etherbase-missing error); with a proof-of-authority engine and no local
wallet holding the resolved address it fails with the signer-missing error
and starts nothing; on success it returns `ok` with mining started
asynchronously (the miner-start trace event), having set the
accept-transactions flag to 1 when `isLocal` is true. -/
theorem startMining_spec (s : Essentia) (isLocal : Bool) :
    (s.etherbase ≠ 0 → (s.Etherbase).1 = .ok s.etherbase)
    ∧ (s.etherbase = 0 → ∀ a as ws, s.wallets = (a :: as) :: ws →
        (s.Etherbase).1 = .ok a)
    ∧ (∀ e, (s.Etherbase).1 = .error e →
        s.StartMining isLocal = ((s.Etherbase).2, .error .etherbaseMissing, []))
    ∧ (∀ eb, (s.Etherbase).1 = .ok eb →
        (s.engine.isCliqueEngine = true → findWallet s.wallets eb = none →
          s.StartMining isLocal = ((s.Etherbase).2, .error .signerMissing, []))
        ∧ ((s.engine.isCliqueEngine = true → findWallet s.wallets eb ≠ none) →
          (s.StartMining isLocal).2.1 = .ok ()
          ∧ MiningEvent.minerStartAsync eb ∈ (s.StartMining isLocal).2.2
          ∧ (isLocal = true → (s.StartMining isLocal).1.acceptTxs = 1)
          ∧ (isLocal = false →
              (s.StartMining isLocal).1.acceptTxs = s.acceptTxs))) := by
  obtain ⟨heng, hwal, hatx, hcfg⟩ := etherbase_fields s
  refine ⟨?_, ?_, ?_, ?_⟩
  · intro h
    unfold Essentia.Etherbase
    rw [if_pos h]
  · intro hz a as ws hw
    unfold Essentia.Etherbase
    rw [if_neg (by simp [hz]), hw]
  · intro e hE
    cases hP : s.Etherbase with
    | mk r s1 =>
      rw [hP] at hE
      simp only at hE
      subst hE
      simp [Essentia.StartMining, hP]
  · intro eb hEb
    cases hP : s.Etherbase with
    | mk r s1 =>
      rw [hP] at hEb heng hwal hatx
      simp only at hEb heng hwal hatx
      subst hEb
      constructor
      · intro hcl hfw
        rw [← heng] at hcl
        rw [← hwal] at hfw
        cases hE : s1.engine with
        | clique cl db =>
          simp [Essentia.StartMining, hP, hE, hfw]
        | ethashFaker => rw [hE] at hcl; simp [Engine.isCliqueEngine] at hcl
        | ethashTester => rw [hE] at hcl; simp [Engine.isCliqueEngine] at hcl
        | ethashShared => rw [hE] at hcl; simp [Engine.isCliqueEngine] at hcl
        | ethashReal cfg t =>
          rw [hE] at hcl; simp [Engine.isCliqueEngine] at hcl
      · intro hok
        rw [← heng, ← hwal] at hok
        cases hE : s1.engine with
        | clique cl db =>
          have hfw : findWallet s1.wallets eb ≠ none := by
            apply hok
            rw [hE]
            rfl
          cases hf : findWallet s1.wallets eb with
          | none => exact absurd hf hfw
          | some w =>
            cases isLocal <;>
              simp [Essentia.StartMining, hP, hE, hf, hatx]
        | ethashFaker =>
          cases isLocal <;> simp [Essentia.StartMining, hP, hE, hatx]
        | ethashTester =>
          cases isLocal <;> simp [Essentia.StartMining, hP, hE, hatx]
        | ethashShared =>
          cases isLocal <;> simp [Essentia.StartMining, hP, hE, hatx]
        | ethashReal cfg t =>
          cases isLocal <;> simp [Essentia.StartMining, hP, hE, hatx]

/-- A node state with an explicitly configured (nonzero) etherbase and a
non-PoA engine, used by the C6 witness. -/
def mineInput : Essentia :=
  { config := exConfig, etherbase := 9, wallets := [],
    engine := .ethashFaker, acceptTxs := 0, lesServer := false }

/-- Witness for C6 at a concrete input: with etherbase 9 configured and a
non-PoA engine, `StartMining true` succeeds, emits the asynchronous
miner-start for address 9, and sets the accept-transactions flag to 1. -/
theorem startMining_spec_witness :
    (mineInput.Etherbase).1 = .ok 9
    ∧ (mineInput.StartMining true).2.1 = .ok ()
    ∧ MiningEvent.minerStartAsync 9 ∈ (mineInput.StartMining true).2.2
    ∧ (mineInput.StartMining true).1.acceptTxs = 1 := by
  have h := ((startMining_spec mineInput true).2.2.2 9 rfl).2
    (fun hc => absurd hc (by decide))
  exact ⟨rfl, h.1, h.2.1, h.2.2.1 rfl⟩

/-- C1 (counterexample input): light serving disabled (`LightServ = 0`) but
a light-peer reservation of 5 configured. -/
def startClaimInput : Essentia :=
  { config := { exConfig with lightServ := 0, lightPeers := 5 },
    etherbase := 0, wallets := [], engine := .ethashFaker, acceptTxs := 0,
    lesServer := false }

/-- C1 is false as stated: at `startClaimInput` with a total peer capacity
of 3, the light-peer reservation 5 is at least the capacity, yet `Start`
returns no error, and the protocol manager is started with the full
capacity 3 instead of capacity minus reservation — the code only performs
the reservation check and subtraction when `LightServ > 0`. -/
theorem start_claim_counterexample :
    startClaimInput.config.lightPeers ≥ (3 : Int)
    ∧ (startClaimInput.Start 3).2 = none
    ∧ StartEvent.protocolManagerStart 3 ∈ (startClaimInput.Start 3).1
    ∧ StartEvent.protocolManagerStart (3 - startClaimInput.config.lightPeers)
        ∉ (startClaimInput.Start 3).1 := by
  decide

/-- C1 (amended): when light serving is enabled (`LightServ > 0`), `Start`
errors iff the light-peer reservation reaches the total capacity — starting
neither the protocol manager nor the light extension — and otherwise starts
the protocol manager with capacity minus reservation; when `LightServ ≤ 0`
no peer-configuration error occurs and the protocol manager is started with
the full capacity. -/
theorem start_peer_budget (s : Essentia) (maxPeers : Int) :
    (s.config.lightServ > 0 →
      (s.config.lightPeers ≥ maxPeers →
        (s.Start maxPeers).2
          = some (.invalidPeerConfig s.config.lightPeers maxPeers)
        ∧ (∀ n, StartEvent.protocolManagerStart n ∉ (s.Start maxPeers).1)
        ∧ StartEvent.lesServerStart ∉ (s.Start maxPeers).1)
      ∧ (s.config.lightPeers < maxPeers →
        (s.Start maxPeers).2 = none
        ∧ StartEvent.protocolManagerStart (maxPeers - s.config.lightPeers)
            ∈ (s.Start maxPeers).1
        ∧ (s.lesServer = true →
            StartEvent.lesServerStart ∈ (s.Start maxPeers).1)))
    ∧ (s.config.lightServ ≤ 0 →
        (s.Start maxPeers).2 = none
        ∧ StartEvent.protocolManagerStart maxPeers ∈ (s.Start maxPeers).1
        ∧ (s.lesServer = true →
            StartEvent.lesServerStart ∈ (s.Start maxPeers).1)) := by
  refine ⟨fun hls => ⟨fun hge => ?_, fun hlt => ?_⟩, fun hle => ?_⟩
  · unfold Essentia.Start
    rw [if_pos hls, if_pos hge]
    exact ⟨rfl, fun n => by simp, by simp⟩
  · unfold Essentia.Start
    rw [if_pos hls, if_neg (not_le.mpr hlt)]
    refine ⟨rfl, by simp, fun hl => by simp [hl]⟩
  · unfold Essentia.Start
    rw [if_neg (not_lt.mpr hle)]
    refine ⟨rfl, by simp, fun hl => by simp [hl]⟩

/-- A node state with light serving enabled, a reservation of 2 and an
attached light extension, used by the C1 witness. -/
def startBudgetInput : Essentia :=
  { config := { exConfig with lightServ := 50, lightPeers := 2 },
    etherbase := 0, wallets := [], engine := .ethashFaker, acceptTxs := 0,
    lesServer := true }

/-- Witness for the amended C1 at concrete inputs: with `LightServ = 50`,
a reservation of 2 and capacity 10, `Start` succeeds, starts the protocol
manager with budget 8 and starts the light extension; with capacity 2 it
fails carrying both counts. -/
theorem start_peer_budget_witness :
    startBudgetInput.config.lightServ > 0
    ∧ startBudgetInput.config.lightPeers < (10 : Int)
    ∧ (startBudgetInput.Start 10).2 = none
    ∧ StartEvent.protocolManagerStart 8 ∈ (startBudgetInput.Start 10).1
    ∧ StartEvent.lesServerStart ∈ (startBudgetInput.Start 10).1
    ∧ startBudgetInput.config.lightPeers ≥ (2 : Int)
    ∧ (startBudgetInput.Start 2).2 = some (.invalidPeerConfig 2 2) := by
  have h1 := ((start_peer_budget startBudgetInput 10).1 (by decide)).2 (by decide)
  have h2 := ((start_peer_budget startBudgetInput 2).1 (by decide)).1 (by decide)
  exact ⟨by decide, by decide, h1.1,
    by simpa using h1.2.1, h1.2.2 rfl, by decide, h2.1⟩

end EssBackend
